/-
Verification of the tabular reshape/normalize routines of the
orange3-datasets add-on (`orangecontrib/datasets/api_wrapper.py`).

The embedding models the Python data values flowing through the routines:
cells of the 2-D arrays produced by `as_list` are strings, `None`, or
numbers, and Python truthiness (`bool(x)`) decides the column filter of
`as_np_array` (`any(col)` keeps a column with at least one truthy entry).
Numbers are modelled by integers: only zero-ness of a number matters to any
of the routines modelled here.  The `astype(float)`/`np.where(... np.nan ...)`
value-coercion steps of `_country_table` change the machine representation
of cells to IEEE floats; floating-point payloads are outside this
development and no property below depends on them, so tables record the
pre-coercion cells.
-/
import Mathlib

namespace WBD

/-- A Python value appearing as an entry of the nested lists returned by
`as_list`: a string, `None`, a number (modelled by `Int`; only its
zero-ness is consulted by the code under verification), or a
`datetime.date` object (as produced by the quarter/month branches of
`_get_iso_date` for the time-series date column). -/
inductive Cell where
  | str : String → Cell
  | none : Cell
  | num : Int → Cell
  | date : Nat × Nat × Nat → Cell
deriving DecidableEq, Repr

/-- Python truthiness `bool(c)`: the empty string, `None` and the number 0
are falsy, everything else (a `datetime.date` defines no `__bool__`) is
truthy.  This is the test applied elementwise by the builtin `any(col)`
in `as_np_array` and by the reduce of `data.any()` in the table
builders. -/
def Cell.truthy : Cell → Bool
  | .str s => !s.isEmpty
  | .none => false
  | .num n => n != 0
  | .date _ => true

def Cell.isDate : Cell → Bool
  | .date _ => true
  | _ => false

/-- The `(year, month, day)` of a date cell (only read under an
`isDate` guard). -/
def Cell.ymd : Cell → Nat × Nat × Nat
  | .date t => t
  | _ => (1, 1, 1)

/-- A 2-D list of lists, row major, as returned by `as_list`. -/
abbrev Matrix := List (List Cell)

/-- The input is a proper 2-D array: every row has length `ncols`.
`np.array` only yields a 2-D array on such input. -/
def Rectangular (rows : Matrix) (ncols : Nat) : Prop :=
  ∀ r ∈ rows, r.length = ncols

instance (rows : Matrix) (n : Nat) : Decidable (Rectangular rows n) := by
  unfold Rectangular; infer_instance

/-- Entry `j` of a row, `Cell.none` out of bounds (all uses below are
guarded to stay in bounds on rectangular input). -/
def cellAt (r : List Cell) (j : Nat) : Cell := r.getD j Cell.none

/-- Column indexes kept by `as_np_array`:
`filter_ = [ind for ind, col in enumerate(data[1:, :].T) if any(col)]` —
the indexes (in increasing order) of the columns with at least one truthy
entry below the header row. -/
def keptCols (rows : Matrix) : List Nat :=
  match rows with
  | [] => []
  | header :: body =>
      (List.range header.length).filter
        (fun j => body.any (fun r => (cellAt r j).truthy))

/-- `as_np_array` (identical in `IndicatorDataset` and `ClimateDataset`):
`data = np.array(self.as_list(...)); return data[:, filter_]` — every row
restricted to the kept columns.  Defined on the raw list of lists; the
partiality of the 2-D indexing on non-rectangular input is captured by
`as_np_array?` below. -/
def as_np_array (rows : Matrix) : Matrix :=
  rows.map (fun r => (keptCols rows).map (cellAt r))

/-- `as_np_array` with its failure mode: on the empty list `np.array([])`
is 1-D and `data[1:, :]` raises `IndexError`; on a ragged list of lists
`np.array` does not produce a 2-D array and the 2-D indexing fails as
well.  `none` models the raised exception. -/
def as_np_array? (rows : Matrix) : Option Matrix :=
  match rows with
  | [] => Option.none
  | header :: body =>
      if (header :: body : Matrix).all (fun r => r.length == header.length) then
        some (as_np_array (header :: body))
      else Option.none

/-- Elementwise truthiness of the array: the reduce `ndarray.any()`
computes exactly this on `object` and numeric dtypes.  On fixed-width
`'<U'` string arrays the reduce instead raises
`TypeError: cannot perform reduce with flexible type`; the table
builders below branch on `dtypeOf` accordingly. -/
def anyCell (rows : Matrix) : Bool :=
  rows.any (fun r => r.any Cell.truthy)

/-! ### The dtype `np.array(list_of_lists)` infers

`None` or an arbitrary object such as a `datetime.date` forces
`dtype=object`; otherwise a string entry gives a fixed-width unicode
dtype `'<U w'` whose itemsize `w` is the length of the longest entry of
the whole (unfiltered) array (minimum 1), and an all-number list gives a
numeric dtype.  Fancy indexing (`data[:, filter_]`) preserves the dtype,
so the filtered array inherits it.  (In the `'<U'` case numpy also
stringifies any number mixed in with the strings; the theorems below
only cover `'<U'` arrays whose entries are all strings, so the cells
themselves need no conversion.) -/

inductive NpDtype where
  | obj : NpDtype
  | fixedStr : Nat → NpDtype
  | numeric : NpDtype
deriving DecidableEq, Repr

def isStrCell : Cell → Bool
  | .str _ => true
  | _ => false

def isNumCell : Cell → Bool
  | .num _ => true
  | _ => false

/-- An entry that forces `dtype=object`. -/
def isObjCell : Cell → Bool
  | Cell.none => true
  | .date _ => true
  | _ => false

/-- Characters of the entry's string form, for the itemsize computation
(numbers are stringified by numpy in a `'<U'` array; the theorems using
the itemsize are restricted to all-string arrays). -/
def cellChars : Cell → Nat
  | .str s => s.data.length
  | .num n => (toString n).length
  | _ => 0

/-- The `'<U w'` itemsize: the longest entry of the unfiltered array. -/
def itemsize (rows : Matrix) : Nat :=
  max 1 (rows.foldl (fun a r => r.foldl (fun a c => max a (cellChars c)) a) 0)

def dtypeOf (rows : Matrix) : NpDtype :=
  if rows.any (fun r => r.any isObjCell) then NpDtype.obj
  else if rows.any (fun r => r.any isStrCell) then NpDtype.fixedStr (itemsize rows)
  else NpDtype.numeric

/-- Assignment of a string into a fixed-width `'<U w'` array silently
truncates it to the itemsize. -/
def truncCell (w : Nat) : Cell → Cell
  | .str s => .str (String.mk (s.data.take w))
  | c => c

/-! ### `IndicatorDataset._get_iso_date`

Strings are handled as lists of characters; `s.split("Q")` and `int(s)`
are modelled below, and `datetime.date(y, m, d)` by `mkDate?` (`none` is
the raised `ValueError`). -/

/-- Python `s.split(sep)` for a one-character separator: split at every
occurrence, keeping empty pieces. -/
def splitChar (c : Char) : List Char → List (List Char)
  | [] => [[]]
  | x :: xs =>
      match splitChar c xs with
      | [] => [[x]]
      | y :: ys => if x = c then [] :: y :: ys else (x :: y) :: ys

/-- Value of a list of decimal digits. -/
def decimalVal (l : List Char) : Nat :=
  l.foldl (fun acc c => acc * 10 + (c.toNat - 48)) 0

/-- The whitespace `int()`/`float()` strip (`Py_UNICODE_ISSPACE`
restricted to ASCII): `\t\n\v\f\r`, the separator controls `\x1c`–`\x1f`,
and the space. -/
def pyWsChar (c : Char) : Bool :=
  (9 ≤ c.toNat && c.toNat ≤ 13) || (28 ≤ c.toNat && c.toNat ≤ 32)

/-- Strip surrounding whitespace, as `int(s)` and `float(s)` do before
parsing. -/
def stripWs (s : List Char) : List Char :=
  ((s.dropWhile pyWsChar).reverse.dropWhile pyWsChar).reverse

/-- The tail of a CPython digit run with underscore grouping: digits,
each underscore standing between two digits. -/
def groupedTail : List Char → Bool
  | [] => true
  | [c] => c.isDigit
  | c :: c2 :: rest =>
      if c = '_' then c2.isDigit && groupedTail rest
      else c.isDigit && groupedTail (c2 :: rest)

/-- A CPython digit run with underscore grouping (`digit (_? digit)*`):
`"10"`, `"1_0"` are accepted, `"_1"`, `"1_"`, `"1__0"` are not. -/
def groupedDigits : List Char → Bool
  | [] => false
  | c :: rest => c.isDigit && groupedTail rest

/-- Python `int(s)` on ASCII strings: surrounding whitespace is stripped,
an optional sign precedes an underscore-grouped run of decimal digits;
anything else raises `ValueError` (`none`).  (CPython additionally
accepts non-ASCII decimal digits; the theorems quantifying over parse
failures carry an ASCII hypothesis.) -/
def pyInt? (s : List Char) : Option Int :=
  match stripWs s with
  | [] => Option.none
  | c :: rest =>
      if c = '-' then
        if groupedDigits rest then
          some (-(decimalVal (rest.filter (fun c => c != '_')) : Int))
        else Option.none
      else if c = '+' then
        if groupedDigits rest then
          some ((decimalVal (rest.filter (fun c => c != '_')) : Int))
        else Option.none
      else
        if groupedDigits (c :: rest) then
          some ((decimalVal ((c :: rest).filter (fun c => c != '_')) : Int))
        else Option.none

def isLeapYear (y : Int) : Bool :=
  (y % 4 == 0 && y % 100 != 0) || y % 400 == 0

def daysInMonth (y m : Int) : Int :=
  if m == 2 then (if isLeapYear y then 29 else 28)
  else if m == 4 || m == 6 || m == 9 || m == 11 then 30
  else 31

/-- The C `int` range: `datetime.date` parses its three arguments with
the `"iii"` format, raising `OverflowError` — which the `except
ValueError:` of `_get_iso_date` does not catch — when a Python int does
not fit a (32-bit) C int. -/
def fitsCInt (n : Int) : Bool :=
  -2147483648 ≤ n && n ≤ 2147483647

/-- Outcome of constructing `datetime.date(y, m, d)`. -/
inductive DateOutcome where
  | ok : Nat × Nat × Nat → DateOutcome
  | valueError : DateOutcome
  | overflowError : DateOutcome
deriving DecidableEq, Repr

/-- `datetime.date(y, m, d)`: arguments beyond the C-int range raise
`OverflowError`; within it, `MINYEAR = 1 ≤ y ≤ 9999 = MAXYEAR`,
`1 ≤ m ≤ 12` and `1 ≤ d ≤` days in that month are enforced with
`ValueError`. -/
def mkDate (y m d : Int) : DateOutcome :=
  if !(fitsCInt y) || !(fitsCInt m) || !(fitsCInt d) then DateOutcome.overflowError
  else if 1 ≤ y && y ≤ 9999 && 1 ≤ m && m ≤ 12 && 1 ≤ d && d ≤ daysInMonth y m then
    DateOutcome.ok (y.toNat, m.toNat, d.toNat)
  else DateOutcome.valueError

/-- Value of `_get_iso_date`: the quarter/month branches return a
`datetime.date` object, the year branch and the fallback return an
ISO-formatted string `date(y, m, d).isoformat()`. -/
inductive DateResult where
  | dateObj : Nat × Nat × Nat → DateResult
  | isoStr : Nat × Nat × Nat → DateResult
deriving DecidableEq, Repr

/-- Outcome of the `try:` block of `_get_iso_date`: a returned value, a
raised `ValueError` (failing `int(...)`, out-of-range
`datetime.date(...)`, or tuple unpacking of a split with more than two
pieces) — which the `except ValueError:` catches — or a raised
`OverflowError`, which nothing catches. -/
inductive ParseOutcome where
  | ok : DateResult → ParseOutcome
  | valueError : ParseOutcome
  | overflowError : ParseOutcome
deriving DecidableEq, Repr

def liftDate (f : Nat × Nat × Nat → DateResult) : DateOutcome → ParseOutcome
  | DateOutcome.ok d => ParseOutcome.ok (f d)
  | DateOutcome.valueError => ParseOutcome.valueError
  | DateOutcome.overflowError => ParseOutcome.overflowError

/-- The `try:` block of `_get_iso_date`. -/
def tryParseDate (s : List Char) : ParseOutcome :=
  if 'Q' ∈ s then
    match splitChar 'Q' s with
    | [ys, qs] =>
        match pyInt? ys, pyInt? qs with
        | some y, some q => liftDate DateResult.dateObj (mkDate y (q * 3 - 2) 1)
        | _, _ => ParseOutcome.valueError
    | _ => ParseOutcome.valueError
  else if 'M' ∈ s then
    match splitChar 'M' s with
    | [ys, ms] =>
        match pyInt? ys, pyInt? ms with
        | some y, some m => liftDate DateResult.dateObj (mkDate y m 1)
        | _, _ => ParseOutcome.valueError
    | _ => ParseOutcome.valueError
  else
    match pyInt? s with
    | some y => liftDate DateResult.isoStr (mkDate y 1 1)
    | Option.none => ParseOutcome.valueError

/-- `IndicatorDataset._get_iso_date`: the `try:` block, with
`datetime.date.today().isoformat()` on a caught `ValueError`.  `today` is
the (environment-supplied) current date; `Option.none` models an
uncaught `OverflowError` propagating out of the function. -/
def get_iso_date (today : Nat × Nat × Nat) (s : List Char) : Option DateResult :=
  match tryParseDate s with
  | ParseOutcome.ok r => some r
  | ParseOutcome.valueError => some (DateResult.isoStr today)
  | ParseOutcome.overflowError => Option.none

/-- ASCII-only strings: the region where the `int()`/`float()` models are
exact (CPython also accepts non-ASCII decimal digits and whitespace,
which no date string of this API contains). -/
def asciiOnly (s : List Char) : Bool :=
  s.all (fun c => c.toNat < 128)

/-- Every entry of the list of lists is a string, so `np.array` infers a
fixed-width `'<U'` dtype (given any entry at all). -/
def allStrM (rows : Matrix) : Bool :=
  rows.all (fun r => r.all isStrCell)

/-! ### `float(...)` coercions of `_country_table`

`data_columns.astype(float)` (an uncaught `ValueError` on entries
`float()` cannot parse; `None` in an object array becomes `nan`) and the
`float(row[3])`/`float(row[4])` longitude/latitude loop, which runs
after `np.where` has replaced `None` and `''` by `nan` in the meta
block.  `pyFloatAccepts` is CPython's `float(str)` grammar on ASCII
(sign, underscore-grouped digit runs around an optional point, optional
exponent, `inf`/`infinity`/`nan`); it accepts only strings CPython
accepts, so the table-building theorems' success direction is sound
(CPython additionally accepts non-ASCII digits). -/

/-- Split at the first `'e'`/`'E'`, returning mantissa and exponent
part. -/
def splitExp : List Char → List Char × Option (List Char)
  | [] => ([], Option.none)
  | c :: r =>
      if c = 'e' || c = 'E' then ([], some r)
      else
        match splitExp r with
        | (m, e) => (c :: m, e)

/-- Split at the first `'.'`. -/
def splitDot : List Char → List Char × Option (List Char)
  | [] => ([], Option.none)
  | c :: r =>
      if c = '.' then ([], some r)
      else
        match splitDot r with
        | (m, e) => (c :: m, e)

/-- Mantissa: `digits`, `digits.`, `digits.digits` or `.digits` (each
digit run underscore-grouped). -/
def mantissaOk (m : List Char) : Bool :=
  match splitDot m with
  | (a, Option.none) => groupedDigits a
  | (a, some b) =>
      !('.' ∈ b) &&
        ((groupedDigits a && (b.isEmpty || groupedDigits b)) ||
          (a.isEmpty && groupedDigits b))

/-- Exponent: optional sign then an underscore-grouped digit run. -/
def exponentOk (e : List Char) : Bool :=
  match e with
  | '+' :: r => groupedDigits r
  | '-' :: r => groupedDigits r
  | r => groupedDigits r

def lowerEq (t : List Char) (w : String) : Bool :=
  t.map Char.toLower == w.data

/-- CPython `float(s)` acceptance on ASCII strings. -/
def pyFloatAccepts (s : List Char) : Bool :=
  let t := stripWs s
  let u := match t with
    | '+' :: r => r
    | '-' :: r => r
    | r => r
  lowerEq u "inf" || lowerEq u "infinity" || lowerEq u "nan" ||
    (match splitExp u with
     | (m, Option.none) => mantissaOk m
     | (m, some e) => mantissaOk m && exponentOk e)

/-- Per-entry success of `astype(float)` on an object array: numbers
pass, `None` becomes `nan`, strings must parse, a `datetime.date` makes
`float()` raise `TypeError`. -/
def floatable : Cell → Bool
  | Cell.none => true
  | .num _ => true
  | .str s => pyFloatAccepts s.data
  | .date _ => false

/-- Longitude/latitude entries survive `float(row[3])`/`float(row[4])`:
`np.where` has already turned `None` and `''` into `nan`. -/
def latlongCellOk (c : Cell) : Bool :=
  c == Cell.str "" || floatable c

/-- Every data-payload entry (`data[1:, 7:]`) of the filtered array is
float-coercible. -/
def dataFloatOk (data : Matrix) : Bool :=
  data.tail.all (fun r => (r.drop 7).all floatable)

/-- Every longitude/latitude entry (columns 4 and 5) of the filtered
array survives the `float(...)` loop. -/
def latlongFloatOk (data : Matrix) : Bool :=
  data.tail.all (fun r => latlongCellOk (cellAt r 4) && latlongCellOk (cellAt r 5))

/-! ### `IndicatorDataset._country_table` -/

/-- The sort key `nonesorter` of `_country_table`: a falsy value sorts as
the empty string, a truthy string as itself.  (A truthy number or date
would make Python's `sorted` raise `TypeError` when compared with a
string; the metadata columns encoded here hold strings and `None` only —
`sortColOk` below captures the sortable columns exactly — and the key is
extended by `""` on the other cells to stay total.) -/
def nonesorterKey : Cell → String
  | .str s => s
  | Cell.none => ""
  | .num _ => ""
  | .date _ => ""

/-- The value `nonesorter` hands to the comparisons of
`sorted(set(col), key=nonesorter)`: the cell itself when truthy, the
empty string when falsy. -/
def nonesorterValue (c : Cell) : Cell :=
  if c.truthy then c else Cell.str ""

/-- `sorted(set(col), key=nonesorter)` runs without `TypeError` iff the
keys of the distinct entries are pairwise comparable: at most one
distinct entry, or all keys of one type (all strings, all numbers, or
all dates). -/
def sortColOk (col : List Cell) : Bool :=
  let keys := col.dedup.map nonesorterValue
  keys.length ≤ 1 || keys.all isStrCell || keys.all isNumCell ||
    keys.all Cell.isDate

/-- The order Python's stable `sorted(…, key=nonesorter)` sorts by. -/
def sortKey (a b : Cell) : Prop := nonesorterKey a ≤ nonesorterKey b

instance : DecidableRel sortKey := fun a b => by unfold sortKey; infer_instance

instance : IsTotal Cell sortKey := ⟨fun a b => le_total (nonesorterKey a) (nonesorterKey b)⟩

instance : IsTrans Cell sortKey := ⟨fun _ _ _ h h' => le_trans h h'⟩

/-- `sorted(set(col), key=nonesorter)`, the insertion order of the
encoding dict `{r: i for i, r in enumerate(sorted(set(col), key=nonesorter))}`.
(CPython's `set` iteration order is unspecified; `dedup` fixes one choice
of it.  Distinct cells with equal keys — `None` next to `""` — may come
out in either order there, and every property proved below is independent
of that choice; `insertionSort` is stable like Python's `sorted`.) -/
def encodeMap (col : List Cell) : List Cell :=
  List.insertionSort sortKey col.dedup

/-- Position of `c` in `l`: the dict lookup `{r: i}[c]` for the distinct
list `l` (first occurrence for a general list). -/
def idxIn (c : Cell) : List Cell → Nat
  | [] => 0
  | x :: xs => if x = c then 0 else idxIn c xs + 1

/-- An Orange variable as constructed by the table builders: only its
constructor (String/Discrete/Continuous/Time), its name, and the `values`
list of a `DiscreteVariable` are ever set by this code. -/
inductive OVar where
  | stringVar : Cell → OVar
  | discreteVar : Cell → List Cell → OVar
  | continuousVar : Cell → OVar
  | timeVar : Cell → OVar
deriving DecidableEq, Repr

def OVar.name : OVar → Cell
  | .stringVar n => n
  | .discreteVar n _ => n
  | .continuousVar n => n
  | .timeVar n => n

/-- `Orange.data.Table(Domain(column_domains, metas=meta_domains),
data_columns, metas=meta_columns)`: attribute variables, meta variables,
and the two payload arrays.  The `astype(float)`/`np.where(… np.nan …)`
steps of `_country_table` only re-encode payload cells as IEEE floats;
the model records the pre-coercion cells. -/
structure OTable where
  domainAttrs : List OVar
  domainMetas : List OVar
  X : Matrix
  metas : Matrix
deriving DecidableEq, Repr

/-- First row of the 2-D array (`data[0]`). -/
def headerOf (rows : Matrix) : List Cell := rows.headD []

/-- `meta_columns = data[1:, :7]`. -/
def metaColumns (data : Matrix) : Matrix := data.tail.map (List.take 7)

/-- Column `j` of the meta block (`meta_columns[:, j]`). -/
def metaCol (data : Matrix) (j : Nat) : List Cell :=
  (metaColumns data).map (fun r => cellAt r j)

/-- All four dictionary-encoded metadata columns of the filtered array
are sortable. -/
def sortEncodeOk (data : Matrix) : Bool :=
  sortColOk (metaCol data 1) && sortColOk (metaCol data 2) &&
    sortColOk (metaCol data 3) && sortColOk (metaCol data 6)

/-- The in-place dictionary encoding
`row[1] = regions[row[1]]; row[2] = admin_regions[row[2]];
row[3] = income_level[row[3]]; row[6] = lending_type[row[6]]` applied to
one row (the encoded index is a Python `int`, modelled as a numeric cell). -/
def encodeMetaRow (regions admin income lending : List Cell) (r : List Cell) :
    List Cell :=
  ((((r.set 1 (Cell.num (idxIn (cellAt r 1) regions))).set 2
      (Cell.num (idxIn (cellAt r 2) admin))).set 3
      (Cell.num (idxIn (cellAt r 3) income))).set 6
      (Cell.num (idxIn (cellAt r 6) lending)))

/-- The table built by the success path of `IndicatorDataset._country_table`
(after the `data.any()` guard, on an array wide enough for the four
column reads). -/
def country_table_core (rows : Matrix) : OTable :=
  let data := as_np_array rows
  let regions := encodeMap (metaCol data 1)
  let admin_regions := encodeMap (metaCol data 2)
  let income_level := encodeMap (metaCol data 3)
  let lending_type := encodeMap (metaCol data 6)
  { domainAttrs := ((headerOf data).drop 7).map OVar.continuousVar
    domainMetas := [
      OVar.stringVar (Cell.str "Country"),
      OVar.discreteVar (Cell.str "Region")
        (List.insertionSort sortKey regions),
      OVar.discreteVar (Cell.str "Admin region")
        (List.insertionSort sortKey admin_regions),
      OVar.discreteVar (Cell.str "Income level")
        (List.insertionSort sortKey income_level),
      OVar.continuousVar (Cell.str "Longitude"),
      OVar.continuousVar (Cell.str "Latitude"),
      OVar.discreteVar (Cell.str "Lending type")
        (List.insertionSort sortKey lending_type)]
    X := data.tail.map (List.drop 7)
    metas := (metaColumns data).map
      (encodeMetaRow regions admin_regions income_level lending_type) }

/-- `IndicatorDataset._country_table`.  In source order:
`data = self.as_np_array(add_metadata=True)`; `if not data.any():` —
on a fixed-width `'<U'` array the reduce itself raises `TypeError`,
otherwise falsiness of every entry returns `None`; the `meta_columns[:, 1]`,
`[:, 2]`, `[:, 3]`, `[:, 6]` reads — on fewer than 7 surviving columns
the first out-of-range one raises `IndexError`; the four
`sorted(set(...), key=nonesorter)` calls — `TypeError` on incomparable
keys; `data_columns.astype(float)` — `ValueError` on a non-coercible
payload entry; and the `float(row[3])`/`float(row[4])` loop —
`ValueError` on a bad longitude/latitude.  All these exceptions are
uncaught (`Except.error`); the model distinguishes error-from-success
but fixes one guard order, so at an input with several failing stages
the error label is that of the model's first failing guard, which
coincides with the program's exception whenever a single stage fails. -/
def country_table (rows : Matrix) : Except String (Option OTable) :=
  let data := as_np_array rows
  match dtypeOf rows with
  | NpDtype.fixedStr _ => Except.error "TypeError"
  | _ =>
    if anyCell data then
      if (headerOf data).length < 7 then Except.error "IndexError"
      else if !(sortEncodeOk data) then Except.error "TypeError"
      else if !(dataFloatOk data) then Except.error "ValueError"
      else if !(latlongFloatOk data) then Except.error "ValueError"
      else Except.ok (some (country_table_core rows))
    else Except.ok Option.none

/-- One meta entry of `_time_series_table`:
`time.mktime(date_.timetuple()) if date_ else None`.  `mk` abstracts
`time.mktime(....timetuple())` on a `datetime.date` (clock/locale
conversion); a falsy entry becomes `None`; a truthy non-date has no
`timetuple` and makes the program raise `AttributeError` — the wrapper
below guards that case, so the `Cell.none` this total function returns
there is never exposed by a theorem. -/
def tsMetaCell (mk : Nat × Nat × Nat → Cell) (c : Cell) : Cell :=
  if c.truthy then
    (match c with
     | Cell.date ymd => mk ymd
     | _ => Cell.none)
  else Cell.none

/-- Every truthy entry of the date column (`data[1:, 0]`) is a
`datetime.date`, so the `timetuple()` calls all succeed. -/
def tsDatesOk (data : Matrix) : Bool :=
  data.tail.all (fun r => !(cellAt r 0).truthy || (cellAt r 0).isDate)

/-- The table built by the success path of
`IndicatorDataset._time_series_table`. -/
def time_series_table_core (mk : Nat × Nat × Nat → Cell) (rows : Matrix) : OTable :=
  let data := as_np_array rows
  { domainAttrs := ((headerOf data).drop 1).map OVar.continuousVar
    domainMetas := [OVar.timeVar (Cell.str "Date")]
    X := data.tail.map (List.drop 1)
    metas := data.tail.map (fun r => [tsMetaCell mk (cellAt r 0)]) }

/-- `IndicatorDataset._time_series_table`.  `data.any()` raises
`TypeError` on a fixed-width `'<U'` array; `data[1:, 0]` is in bounds
because the `data.any()` guard guarantees at least one surviving column;
a truthy non-date in the date column raises `AttributeError` at
`date_.timetuple()`. -/
def time_series_table (mk : Nat × Nat × Nat → Cell) (rows : Matrix) :
    Except String (Option OTable) :=
  match dtypeOf rows with
  | NpDtype.fixedStr _ => Except.error "TypeError"
  | _ =>
    if anyCell (as_np_array rows) then
      if tsDatesOk (as_np_array rows) then
        Except.ok (some (time_series_table_core mk rows))
      else Except.error "AttributeError"
    else Except.ok Option.none

/-- The dataset object: `as_list(time_series=…, add_metadata=…)` builds a
fresh list of lists from the wrapped library's stored raw response, a
pure function of the object's state. -/
structure IndicatorData where
  lst : Bool → Bool → Matrix

/-- `IndicatorDataset.as_orange_table(time_series=…)`: dispatch to
`_time_series_table` (which calls `as_np_array(time_series=True)`) or
`_country_table` (which calls `as_np_array(add_metadata=True)`). -/
def as_orange_table (mk : Nat × Nat × Nat → Cell) (d : IndicatorData)
    (time_series : Bool) : Except String (Option OTable) :=
  if time_series then time_series_table mk (d.lst true false)
  else country_table (d.lst false true)

/-! ### `ClimateDataset._country_table`

`countries.get_alpha3_map()` lives in `orangecontrib/datasets/countries.py`,
which is not among the sources at hand; the map is therefore carried as a
parameter (an association list with the distinct keys of a Python dict),
and `dict.get(k, default)` is modelled by `alphaGet`. -/

/-- `alpha3_map.get(c, c)`: the value of the first pair whose key is `c`,
or `c` itself when no key matches. -/
def alphaGet (m : List (Cell × Cell)) (c : Cell) : Cell :=
  (((m.find? (fun p => p.1 == c)).map Prod.snd).getD c)

/-- The table built by the success path of
`ClimateDataset._country_table`; `store` is what the numpy assignment
into the country-column view does to the assigned value (identity on an
object array, truncation to the itemsize on a `'<U'` array). -/
def climate_country_table_core (alpha3 : List (Cell × Cell))
    (store : Cell → Cell) (rows : Matrix) : OTable :=
  let data := as_np_array rows
  { domainAttrs := ((headerOf data).drop 1).map OVar.continuousVar
    domainMetas := ((headerOf data).take 1).map OVar.stringVar
    X := data.tail.map (List.drop 1)
    metas := data.tail.map
      (fun r => (r.take 1).set 0 (store (alphaGet alpha3 (cellAt r 0)))) }

/-- `ClimateDataset._country_table`.  `if data.shape[0] < 2: return None`;
then `row[0] = alpha3_map.get(row[0], row[0])` over the rows of
`meta_columns = data[1:, :1]` — on an array with no surviving column the
first such assignment raises an (uncaught) `IndexError`; on a
fixed-width `'<U w'` array the assignment silently truncates the stored
value to the itemsize `w` of the unfiltered array, while an object
array stores it unchanged. -/
def climate_country_table (alpha3 : List (Cell × Cell)) (rows : Matrix) :
    Except String (Option OTable) :=
  let data := as_np_array rows
  if data.length < 2 then Except.ok Option.none
  else if (headerOf data).length = 0 then Except.error "IndexError"
  else
    Except.ok (some (climate_country_table_core alpha3
      (match dtypeOf rows with
       | NpDtype.fixedStr w => truncCell w
       | _ => fun c => c) rows))

/-! ### Heap model of the array allocation and mutation

`np.array(...)` and the fancy indexing `data[:, filter_]` allocate fresh
arrays; `data[1:, :7]` is a view, and the dictionary-encoding loop of
`_country_table` writes through it into the array it views.  The heap
holds every array ever allocated; the dataset's stored raw data lives at
a pre-existing address, and `as_list` reads it. -/

structure Heap where
  arrays : List Matrix

def Heap.get (h : Heap) (a : Nat) : Matrix := h.arrays.getD a []

def Heap.alloc (h : Heap) (m : Matrix) : Heap × Nat :=
  (⟨h.arrays ++ [m]⟩, h.arrays.length)

def Heap.put (h : Heap) (a : Nat) (m : Matrix) : Heap :=
  ⟨h.arrays.set a m⟩

/-- `as_np_array` on the heap: `np.array(self.as_list(...))` copies the
raw data at `src` into a fresh array, and `data[:, filter_]` (fancy
indexing) allocates another fresh array for the result. -/
def as_np_array_st (h : Heap) (src : Nat) : Heap × Nat :=
  let p := h.alloc (h.get src)
  let q := p.1.alloc (as_np_array (p.1.get p.2))
  q

/-- The write `_country_table` performs on the array holding the filtered
data: the encoding loop assigns through the `data[1:, :7]` view, so
columns 1, 2, 3, 6 of every row below the header are overwritten in
place.  (Mutating the array after `data_columns = data[1:, 7:]` was
sliced is observationally harmless: the written columns are disjoint from
the `7:` slice and from row 0, the only parts read afterwards.) -/
def encodeDataInPlace (d : Matrix) : Matrix :=
  match d with
  | [] => []
  | header :: body =>
      header :: body.map
        (encodeMetaRow (encodeMap (metaCol d 1)) (encodeMap (metaCol d 2))
          (encodeMap (metaCol d 3)) (encodeMap (metaCol d 6)))

/-- `IndicatorDataset._country_table` on the heap: allocate via
`as_np_array`; the dtype/`any()`/width/sortability failures raise before
anything is written; past them the dictionary-encoding loop mutates the
freshly allocated filtered array through the meta view (it runs before
the `astype(float)` coercion, so that write happens even on the
`ValueError` paths).  The returned value is the one the pure
`country_table` computes from the raw data. -/
def country_table_st (h : Heap) (src : Nat) :
    Heap × Except String (Option OTable) :=
  let p := as_np_array_st h src
  let d := p.1.get p.2
  match dtypeOf (h.get src) with
  | NpDtype.fixedStr _ => (p.1, Except.error "TypeError")
  | _ =>
    if anyCell d then
      if (headerOf d).length < 7 then (p.1, Except.error "IndexError")
      else if !(sortEncodeOk d) then (p.1, Except.error "TypeError")
      else (p.1.put p.2 (encodeDataInPlace d), country_table (h.get src))
    else (p.1, Except.ok Option.none)

/-- `IndicatorDataset._time_series_table` on the heap: it allocates via
`as_np_array` and builds fresh Python lists, mutating nothing. -/
def time_series_table_st (mk : Nat × Nat × Nat → Cell) (h : Heap) (src : Nat) :
    Heap × Except String (Option OTable) :=
  let p := as_np_array_st h src
  (p.1, time_series_table mk (h.get src))

/-- `as_orange_table` on the heap: the raw lists `as_list` builds for the
two flag settings live at `srcTs` (`time_series=True`) and `srcMeta`
(`add_metadata=True`). -/
def as_orange_table_st (mk : Nat × Nat × Nat → Cell) (h : Heap)
    (srcTs srcMeta : Nat) (time_series : Bool) :
    Heap × Except String (Option OTable) :=
  if time_series then time_series_table_st mk h srcTs
  else country_table_st h srcMeta

/-! ## Lemmas about the column filter -/

theorem mem_keptCols {header : List Cell} {body : Matrix} {j : Nat} :
    j ∈ keptCols (header :: body) ↔
      j < header.length ∧ body.any (fun r => (cellAt r j).truthy) = true := by
  simp [keptCols, List.mem_filter, List.mem_range]

theorem keptCols_sorted (rows : Matrix) :
    List.Sorted (· < ·) (keptCols rows) := by
  cases rows with
  | nil => simp [keptCols, List.Sorted]
  | cons header body =>
      exact (List.pairwise_lt_range header.length).filter _

theorem length_as_np_array (rows : Matrix) :
    (as_np_array rows).length = rows.length := by
  simp [as_np_array]

theorem headerOf_as_np_array_length (rows : Matrix) :
    (headerOf (as_np_array rows)).length = (keptCols rows).length := by
  cases rows with
  | nil => simp [as_np_array, headerOf, keptCols]
  | cons header body => simp [as_np_array, headerOf]

theorem mem_as_np_array_length {rows : Matrix} {r : List Cell}
    (h : r ∈ as_np_array rows) : r.length = (keptCols rows).length := by
  simp only [as_np_array, List.mem_map] at h
  obtain ⟨r₀, _, rfl⟩ := h
  simp

/-! ## Lemmas about the date parser -/

theorem isDigit_toNat {c : Char} (h : c.isDigit = true) :
    48 ≤ c.toNat ∧ c.toNat ≤ 57 := by
  simp only [Char.isDigit, Bool.and_eq_true, decide_eq_true_eq] at h
  exact h

theorem isDigit_ne {c : Char} (h : c.isDigit = true) :
    c ≠ '-' ∧ c ≠ '+' ∧ c ≠ 'Q' ∧ c ≠ 'M' ∧ c ≠ '_' ∧ pyWsChar c = false := by
  refine ⟨?_, ?_, ?_, ?_, ?_, ?_⟩
  · rintro rfl; exact absurd h (by decide)
  · rintro rfl; exact absurd h (by decide)
  · rintro rfl; exact absurd h (by decide)
  · rintro rfl; exact absurd h (by decide)
  · rintro rfl; exact absurd h (by decide)
  · have ht := isDigit_toNat h
    simp only [pyWsChar, Bool.or_eq_false_iff, Bool.and_eq_false_iff,
      decide_eq_false_iff_not, not_le]
    omega

theorem dropWhile_ws_of_digits {l : List Char} (h : l.all Char.isDigit = true) :
    l.dropWhile pyWsChar = l := by
  cases l with
  | nil => rfl
  | cons c cs =>
      have hc : c.isDigit = true := (List.all_eq_true.mp h) c (by simp)
      simp [List.dropWhile_cons, (isDigit_ne hc).2.2.2.2.2]

theorem stripWs_of_digits {l : List Char} (h : l.all Char.isDigit = true) :
    stripWs l = l := by
  have h' : l.reverse.all Char.isDigit = true := by
    rw [List.all_eq_true] at h ⊢
    intro c hc
    exact h c (List.mem_reverse.mp hc)
  unfold stripWs
  rw [dropWhile_ws_of_digits h, dropWhile_ws_of_digits h', List.reverse_reverse]

theorem groupedTail_of_digits :
    ∀ {l : List Char}, l.all Char.isDigit = true → groupedTail l = true
  | [], _ => rfl
  | [c], h => by
      have hc : c.isDigit = true := (List.all_eq_true.mp h) c (by simp)
      simp [groupedTail, hc]
  | c :: c2 :: rest, h => by
      have hc : c.isDigit = true := (List.all_eq_true.mp h) c (by simp)
      have hcs : (c2 :: rest).all Char.isDigit = true := by
        rw [List.all_eq_true] at h ⊢
        intro x hx
        exact h x (List.mem_cons_of_mem _ hx)
      simp only [groupedTail]
      rw [if_neg (isDigit_ne hc).2.2.2.2.1]
      simp [hc, groupedTail_of_digits hcs]

theorem groupedDigits_of_digits {l : List Char} (hne : l ≠ [])
    (h : l.all Char.isDigit = true) : groupedDigits l = true := by
  obtain ⟨c, cs, rfl⟩ := List.exists_cons_of_ne_nil hne
  have hc : c.isDigit = true := (List.all_eq_true.mp h) c (by simp)
  have hcs : cs.all Char.isDigit = true := by
    rw [List.all_eq_true] at h ⊢
    intro x hx
    exact h x (List.mem_cons_of_mem _ hx)
  simp [groupedDigits, hc, groupedTail_of_digits hcs]

theorem filter_underscore_of_digits {l : List Char}
    (h : l.all Char.isDigit = true) :
    l.filter (fun c => c != '_') = l := by
  rw [List.filter_eq_self]
  intro c hc
  have hc' : c.isDigit = true := (List.all_eq_true.mp h) c hc
  simp [(isDigit_ne hc').2.2.2.2.1]

theorem pyInt?_digits {l : List Char} (hne : l ≠ [])
    (h : l.all Char.isDigit = true) :
    pyInt? l = some ((decimalVal l : Int)) := by
  obtain ⟨c, cs, rfl⟩ := List.exists_cons_of_ne_nil hne
  have hc : c.isDigit = true := (List.all_eq_true.mp h) c (by simp)
  have hd := isDigit_ne hc
  unfold pyInt?
  rw [stripWs_of_digits h]
  simp [hd.1, hd.2.1, groupedDigits_of_digits (by simp) h,
    filter_underscore_of_digits h]

theorem splitChar_of_not_mem {c : Char} {l : List Char} (h : c ∉ l) :
    splitChar c l = [l] := by
  induction l with
  | nil => rfl
  | cons x xs ih =>
      have hx : ¬ x = c := fun e => h (e ▸ List.mem_cons_self x xs)
      have hxs : c ∉ xs := fun m => h (List.mem_cons_of_mem _ m)
      rw [splitChar, ih hxs]
      simp [hx]

theorem splitChar_append {c : Char} {a b : List Char} (ha : c ∉ a) (hb : c ∉ b) :
    splitChar c (a ++ c :: b) = [a, b] := by
  induction a with
  | nil =>
      rw [List.nil_append, splitChar, splitChar_of_not_mem hb]
      simp
  | cons x xs ih =>
      have hx : ¬ x = c := fun e => ha (e ▸ List.mem_cons_self x xs)
      have hxs : c ∉ xs := fun m => ha (List.mem_cons_of_mem _ m)
      rw [List.cons_append, splitChar, ih hxs]
      simp [hx]

theorem daysInMonth_pos (y m : Int) : 1 ≤ daysInMonth y m := by
  unfold daysInMonth
  split_ifs <;> norm_num

theorem mkDate_day1 {y m : Int} (hy1 : 1 ≤ y) (hy2 : y ≤ 9999)
    (hm1 : 1 ≤ m) (hm2 : m ≤ 12) :
    mkDate y m 1 = DateOutcome.ok (y.toNat, m.toNat, 1) := by
  have hd := daysInMonth_pos y m
  unfold mkDate
  rw [if_neg (by simp [fitsCInt]; omega), if_pos (by simp [hy1, hy2, hm1, hm2, hd])]
  rfl

theorem not_mem_of_all_digits {c : Char} {l : List Char}
    (h : l.all Char.isDigit = true) (hc : c.isDigit = false) : c ∉ l :=
  fun m => absurd ((List.all_eq_true.mp h) c m) (by simp [hc])

/-! ## The claims -/

/-- C1: `as_np_array` drops exactly the all-empty columns — a column
index `j` is dropped iff every entry of column `j` below the header row
is falsy, kept iff some entry below the header is truthy — and the kept
column indexes stay in increasing (original) order, every row of the
output being its input row restricted to them. -/
theorem claim_C1 (header : List Cell) (body : Matrix)
    (hrect : Rectangular (header :: body) header.length)
    (j : Nat) (hj : j < header.length) :
    (j ∉ keptCols (header :: body) ↔
      ∀ r ∈ body, (cellAt r j).truthy = false) ∧
    (j ∈ keptCols (header :: body) ↔
      ∃ r ∈ body, (cellAt r j).truthy = true) ∧
    List.Sorted (· < ·) (keptCols (header :: body)) ∧
    as_np_array (header :: body) =
      (header :: body).map (fun r => (keptCols (header :: body)).map (cellAt r)) := by
  refine ⟨?_, ?_, keptCols_sorted _, rfl⟩
  · rw [mem_keptCols]
    simp [hj, List.any_eq_true]
  · rw [mem_keptCols]
    simp [hj, List.any_eq_true]

/-- C1 witness: on a concrete 2 × 3 array, column 0 (all-empty below the
header) is dropped and column 1 (one non-empty entry) is kept. -/
theorem claim_C1_witness :
    (0 ∉ keptCols [[Cell.str "h1", Cell.str "h2"], [Cell.str "", Cell.str "a"]] ↔
      ∀ r ∈ [[Cell.str "", Cell.str "a"]], (cellAt r 0).truthy = false) ∧
    (0 ∈ keptCols [[Cell.str "h1", Cell.str "h2"], [Cell.str "", Cell.str "a"]] ↔
      ∃ r ∈ [[Cell.str "", Cell.str "a"]], (cellAt r 0).truthy = true) := by
  have h := claim_C1 [Cell.str "h1", Cell.str "h2"] [[Cell.str "", Cell.str "a"]]
    (by decide) 0 (by decide)
  exact ⟨h.1, h.2.1⟩

/-- C9: `as_np_array` preserves the row structure: the output has as many
rows as the input, row 0 comes from the header row (whose values the
column filter never consults: any header of the same length yields the
same kept columns), and the kept columns appear in increasing original
order. -/
theorem claim_C9 (header : List Cell) (body : Matrix)
    (hrect : Rectangular (header :: body) header.length) :
    (as_np_array (header :: body)).length = (header :: body).length ∧
    (as_np_array (header :: body)).head? =
      some ((keptCols (header :: body)).map (cellAt header)) ∧
    (∀ header' : List Cell, header'.length = header.length →
      keptCols (header' :: body) = keptCols (header :: body)) ∧
    List.Sorted (· < ·) (keptCols (header :: body)) := by
  refine ⟨length_as_np_array _, by simp [as_np_array], ?_, keptCols_sorted _⟩
  intro header' hlen
  simp [keptCols, hlen]

/-- C9 witness at a concrete 3 × 2 array. -/
theorem claim_C9_witness :
    (as_np_array [[Cell.str "h1", Cell.str "h2"], [Cell.str "", Cell.str "a"],
      [Cell.none, Cell.none]]).length =
      ([[Cell.str "h1", Cell.str "h2"], [Cell.str "", Cell.str "a"],
        [Cell.none, Cell.none]] : Matrix).length := by
  exact (claim_C9 [Cell.str "h1", Cell.str "h2"]
    [[Cell.str "", Cell.str "a"], [Cell.none, Cell.none]] (by decide)).1

/-- C10: on a non-empty rectangular list of lists the 2-D slicing of
`as_np_array` is in bounds and the call returns normally, while on the
empty list `np.array([])` is 1-D and the 2-D indexing `data[1:, :]`
raises (`as_np_array? [] = none`). -/
theorem claim_C10 (header : List Cell) (body : Matrix)
    (hrect : Rectangular (header :: body) header.length) :
    as_np_array? (header :: body) = some (as_np_array (header :: body)) ∧
    as_np_array? ([] : Matrix) = Option.none := by
  constructor
  · have hall : (header :: body).all (fun r => r.length == header.length) = true := by
      rw [List.all_eq_true]
      intro r hr
      exact beq_iff_eq.mpr (hrect r hr)
    simp [as_np_array?, hall]
  · rfl

/-- C10 witness: a concrete 1 × 1 array (a bare header row) is accepted. -/
theorem claim_C10_witness :
    as_np_array? [[Cell.str "h"]] = some (as_np_array [[Cell.str "h"]]) ∧
    as_np_array? ([] : Matrix) = Option.none :=
  claim_C10 [Cell.str "h"] [] (by decide)

/-- C2: `_get_iso_date` sends `"<year>Q<q>"` (`1 ≤ q ≤ 4`) to the
`datetime.date` `(year, 3q − 2, 1)` — the first day of the first month of
the quarter — `"<year>M<m>"` (`1 ≤ m ≤ 12`) to the date `(year, m, 1)`,
and a plain year numeral to the ISO-formatted string of January 1 of that
year (year numerals within `datetime`'s 1–9999 range), returning
normally in each case. -/
theorem claim_C2 (today : Nat × Nat × Nat) :
    (∀ (ys qs : List Char) (y q : Nat),
      ys ≠ [] → ys.all Char.isDigit = true → decimalVal ys = y →
      1 ≤ y → y ≤ 9999 →
      qs ≠ [] → qs.all Char.isDigit = true → decimalVal qs = q →
      1 ≤ q → q ≤ 4 →
      get_iso_date today (ys ++ 'Q' :: qs) =
        some (DateResult.dateObj (y, 3 * q - 2, 1))) ∧
    (∀ (ys ms : List Char) (y m : Nat),
      ys ≠ [] → ys.all Char.isDigit = true → decimalVal ys = y →
      1 ≤ y → y ≤ 9999 →
      ms ≠ [] → ms.all Char.isDigit = true → decimalVal ms = m →
      1 ≤ m → m ≤ 12 →
      get_iso_date today (ys ++ 'M' :: ms) =
        some (DateResult.dateObj (y, m, 1))) ∧
    (∀ (ys : List Char) (y : Nat),
      ys ≠ [] → ys.all Char.isDigit = true → decimalVal ys = y →
      1 ≤ y → y ≤ 9999 →
      get_iso_date today ys = some (DateResult.isoStr (y, 1, 1))) := by
  refine ⟨?_, ?_, ?_⟩
  · intro ys qs y q hysne hysd hysv hy1 hy2 hqsne hqsd hqsv hq1 hq2
    subst hysv
    subst hqsv
    have hQys : 'Q' ∉ ys := not_mem_of_all_digits hysd (by decide)
    have hQqs : 'Q' ∉ qs := not_mem_of_all_digits hqsd (by decide)
    have hmem : 'Q' ∈ ys ++ 'Q' :: qs := by simp
    have hmk := mkDate_day1 (y := ((decimalVal ys : Int)))
      (m := ((decimalVal qs : Int)) * 3 - 2)
      (by exact_mod_cast hy1) (by exact_mod_cast hy2) (by omega) (by omega)
    have h1 : (((decimalVal ys : Int))).toNat = decimalVal ys := by omega
    have h2 : ((((decimalVal qs : Int))) * 3 - 2).toNat = 3 * decimalVal qs - 2 := by
      omega
    unfold get_iso_date tryParseDate
    rw [if_pos hmem, splitChar_append hQys hQqs]
    simp [pyInt?_digits hysne hysd, pyInt?_digits hqsne hqsd, hmk, liftDate,
      h1, h2]
  · intro ys ms y m hysne hysd hysv hy1 hy2 hmsne hmsd hmsv hm1 hm2
    subst hysv
    subst hmsv
    have hMys : 'M' ∉ ys := not_mem_of_all_digits hysd (by decide)
    have hMms : 'M' ∉ ms := not_mem_of_all_digits hmsd (by decide)
    have hQ : 'Q' ∉ ys ++ 'M' :: ms := by
      intro hmem
      rcases List.mem_append.mp hmem with h | h
      · exact not_mem_of_all_digits hysd (by decide) h
      · rcases List.mem_cons.mp h with h | h
        · exact absurd h (by decide)
        · exact not_mem_of_all_digits hmsd (by decide) h
    have hM : 'M' ∈ ys ++ 'M' :: ms := by simp
    have hmk := mkDate_day1 (y := ((decimalVal ys : Int)))
      (m := ((decimalVal ms : Int)))
      (by exact_mod_cast hy1) (by exact_mod_cast hy2)
      (by exact_mod_cast hm1) (by exact_mod_cast hm2)
    have h1 : (((decimalVal ys : Int))).toNat = decimalVal ys := by omega
    have h2 : (((decimalVal ms : Int))).toNat = decimalVal ms := by omega
    unfold get_iso_date tryParseDate
    rw [if_neg hQ, if_pos hM, splitChar_append hMys hMms]
    simp [pyInt?_digits hysne hysd, pyInt?_digits hmsne hmsd, hmk, liftDate,
      h1, h2]
  · intro ys y hysne hysd hysv hy1 hy2
    subst hysv
    have hQ : 'Q' ∉ ys := not_mem_of_all_digits hysd (by decide)
    have hM : 'M' ∉ ys := not_mem_of_all_digits hysd (by decide)
    have hmk := mkDate_day1 (y := ((decimalVal ys : Int))) (m := (1 : Int))
      (by exact_mod_cast hy1) (by exact_mod_cast hy2) (by norm_num) (by norm_num)
    have h1 : (((decimalVal ys : Int))).toNat = decimalVal ys := by omega
    unfold get_iso_date tryParseDate
    rw [if_neg hQ, if_neg hM]
    simp [pyInt?_digits hysne hysd, hmk, liftDate, h1]

/-- C2 witness: `"2005Q3" ↦ date(2005, 7, 1)` as a date object, and
`"2005" ↦ "2005-01-01"` as an ISO string. -/
theorem claim_C2_witness :
    get_iso_date (2016, 1, 1) (['2', '0', '0', '5'] ++ 'Q' :: ['3']) =
      some (DateResult.dateObj (2005, 7, 1)) ∧
    get_iso_date (2016, 1, 1) ['2', '0', '0', '5'] =
      some (DateResult.isoStr (2005, 1, 1)) := by
  constructor
  · exact (claim_C2 (2016, 1, 1)).1 ['2', '0', '0', '5'] ['3'] 2005 3
      (by decide) (by decide) (by decide) (by decide) (by decide)
      (by decide) (by decide) (by decide) (by decide) (by decide)
  · exact (claim_C2 (2016, 1, 1)).2.2 ['2', '0', '0', '5'] 2005
      (by decide) (by decide) (by decide) (by decide) (by decide)

/-- C5 counterexample: `"2005Q3000000000"` carries a quarter number
outside the valid calendar range, yet `_get_iso_date` does not return
today's date for it — `datetime.date` raises `OverflowError` (the month
argument exceeds the C-int range), which the `except ValueError:` does
not catch, so the call propagates an exception.  (Also,
underscore-grouped numerals such as `"1_0"` are parsed by `int()`, so
they are not fallback cases either.) -/
theorem claim_C5_cex :
    get_iso_date (2016, 1, 1) "2005Q3000000000".data = Option.none ∧
    tryParseDate "2005Q3000000000".data = ParseOutcome.overflowError ∧
    tryParseDate "1_0".data = ParseOutcome.ok (DateResult.isoStr (10, 1, 1)) := by
  refine ⟨by decide, by decide, by decide⟩

/-- C5 (amended: the fallback covers exactly the caught `ValueError`s):
whenever the `try:` block raises `ValueError` — non-numeric strings such
as `"Last Known Value"` or `"1988-2000"`, and quarter/month numbers
outside the calendar range but within the C-int range (`"2005Q5"`,
`"1999M0"`, `"1999M13"`) — the function returns today's date in ISO
format; numbers beyond the C-int range instead raise an uncaught
`OverflowError`.  The ASCII hypothesis scopes the `int()` model's
exactness. -/
theorem claim_C5 (today : Nat × Nat × Nat) :
    (∀ s : List Char, asciiOnly s = true →
      tryParseDate s = ParseOutcome.valueError →
      get_iso_date today s = some (DateResult.isoStr today)) ∧
    (∀ s : List Char, asciiOnly s = true →
      tryParseDate s = ParseOutcome.overflowError →
      get_iso_date today s = Option.none) ∧
    tryParseDate "Last Known Value".data = ParseOutcome.valueError ∧
    tryParseDate "1988-2000".data = ParseOutcome.valueError ∧
    tryParseDate "2005Q5".data = ParseOutcome.valueError ∧
    tryParseDate "1999M0".data = ParseOutcome.valueError ∧
    tryParseDate "1999M13".data = ParseOutcome.valueError := by
  refine ⟨?_, ?_, by decide, by decide, by decide, by decide, by decide⟩
  · intro s _ hs
    simp [get_iso_date, hs]
  · intro s _ hs
    simp [get_iso_date, hs]

/-- C5 witness: on `"Last Known Value"` the function returns today's date
(here 2016-01-01) in ISO form. -/
theorem claim_C5_witness :
    get_iso_date (2016, 1, 1) "Last Known Value".data =
      some (DateResult.isoStr (2016, 1, 1)) :=
  (claim_C5 (2016, 1, 1)).1 "Last Known Value".data (by decide) (by decide)

/-! ## Lemmas about the dictionary encoding -/

theorem encodeMap_sort_eq (col : List Cell) :
    List.insertionSort sortKey (encodeMap col) = encodeMap col :=
  (List.sorted_insertionSort sortKey col.dedup).insertionSort_eq

theorem get?_idxIn {c : Cell} {l : List Cell} (h : c ∈ l) :
    l.get? (idxIn c l) = some c := by
  induction l with
  | nil => cases h
  | cons x xs ih =>
      by_cases hx : x = c
      · simp [idxIn, hx]
      · have hxs : c ∈ xs := by
          rcases List.mem_cons.mp h with h' | h'
          · exact absurd h'.symm hx
          · exact h'
        have hh := ih hxs
        simp only [List.get?_eq_getElem?] at hh ⊢
        simp [idxIn, hx, hh]

theorem mem_encodeMap {c : Cell} {col : List Cell} (h : c ∈ col) :
    c ∈ encodeMap col := by
  unfold encodeMap
  rw [List.mem_insertionSort]
  exact List.mem_dedup.mpr h

/-- C3: the dictionary encoding of `_country_table` round-trips — the
values list of the `DiscreteVariable` is exactly the sorted distinct list
the encoding dict enumerates (re-sorting it changes nothing), every cell
of the column maps to its index in it, and indexing the values list at
the encoded index gives back the original cell; in `country_table_core`
the Region/Admin region/Income level/Lending type variables carry those
lists (Region shown at meta position 1, the others are the same
construction at positions 2, 3, 6). -/
theorem claim_C3 (col : List Cell)
    (hS : ∀ c ∈ col, c = Cell.none ∨ ∃ s, c = Cell.str s) :
    List.insertionSort sortKey (encodeMap col) = encodeMap col ∧
    (∀ c ∈ col, (encodeMap col).get? (idxIn c (encodeMap col)) = some c) ∧
    (∀ rows : Matrix, (country_table_core rows).domainMetas.get? 1 =
      some (OVar.discreteVar (Cell.str "Region")
        (encodeMap (metaCol (as_np_array rows) 1)))) := by
  refine ⟨encodeMap_sort_eq col, ?_, ?_⟩
  · intro c hc
    exact get?_idxIn (mem_encodeMap hc)
  · intro rows
    simp [country_table_core, encodeMap_sort_eq]

/-- C3 witness: for the column `["b", None, "a"]` the sorted distinct
values are `[None, "a", "b"]` and looking the encoded index of `"a"` back
up returns `"a"`. -/
theorem claim_C3_witness :
    (encodeMap [Cell.str "b", Cell.none, Cell.str "a"]).get?
      (idxIn (Cell.str "a") (encodeMap [Cell.str "b", Cell.none, Cell.str "a"])) =
      some (Cell.str "a") :=
  (claim_C3 [Cell.str "b", Cell.none, Cell.str "a"]
    (by
      intro c hc
      fin_cases hc
      · exact Or.inr ⟨"b", rfl⟩
      · exact Or.inl rfl
      · exact Or.inr ⟨"a", rfl⟩)).2.1 (Cell.str "a") (by decide)

/-- C4 counterexample: a non-empty object-dtype indicator array whose
filter keeps only two columns (the third is all-`None` below the header)
makes `_country_table` raise `IndexError` at `meta_columns[:, 1]`
instead of building the described table: the claim's split does not
happen for every non-empty array. -/
theorem claim_C4_cex :
    anyCell (as_np_array [[Cell.str "Country", Cell.str "ind", Cell.str "x"],
      [Cell.str "Slovenia", Cell.str "1", Cell.none]]) = true ∧
    country_table [[Cell.str "Country", Cell.str "ind", Cell.str "x"],
      [Cell.str "Slovenia", Cell.str "1", Cell.none]] =
      Except.error "IndexError" := by
  refine ⟨by decide, rfl⟩

/-- C4 (amended: on an object-dtype array — at least one `None`, the
reachable case since an all-string array already makes `data.any()`
raise `TypeError` — with at least 7 surviving columns, sortable encoded
metadata columns, and float-coercible payload and longitude/latitude
entries): `_country_table` returns a table whose metadata columns are
the first 7 columns of the filtered array, under the variables named
Country, Region, Admin region, Income level, Longitude, Latitude,
Lending type in that order, and whose data columns are the remaining
columns as continuous variables named after their header entries. -/
theorem claim_C4 (rows : Matrix)
    (hdt : dtypeOf rows = NpDtype.obj)
    (h1 : anyCell (as_np_array rows) = true)
    (h2 : 7 ≤ (headerOf (as_np_array rows)).length)
    (h3 : sortEncodeOk (as_np_array rows) = true)
    (h4 : dataFloatOk (as_np_array rows) = true)
    (h5 : latlongFloatOk (as_np_array rows) = true) :
    country_table rows = Except.ok (some (country_table_core rows)) ∧
    (country_table_core rows).domainMetas.map OVar.name =
      [Cell.str "Country", Cell.str "Region", Cell.str "Admin region",
       Cell.str "Income level", Cell.str "Longitude", Cell.str "Latitude",
       Cell.str "Lending type"] ∧
    (country_table_core rows).domainAttrs =
      ((headerOf (as_np_array rows)).drop 7).map OVar.continuousVar ∧
    (country_table_core rows).metas =
      (metaColumns (as_np_array rows)).map
        (encodeMetaRow (encodeMap (metaCol (as_np_array rows) 1))
          (encodeMap (metaCol (as_np_array rows) 2))
          (encodeMap (metaCol (as_np_array rows) 3))
          (encodeMap (metaCol (as_np_array rows) 6))) ∧
    (country_table_core rows).X = (as_np_array rows).tail.map (List.drop 7) := by
  have h2' : ¬ (headerOf (as_np_array rows)).length < 7 := by omega
  refine ⟨?_, rfl, rfl, rfl, rfl⟩
  simp [country_table, hdt, h1, h2', h3, h4, h5]

/-- C4 witness: a 9-column object-dtype array (country, the four
categorical columns, longitude, latitude, lending type, one numeric
payload column, one all-`None` column dropped by the filter) is split
into the 7 metadata columns and one data column. -/
theorem claim_C4_witness :
    country_table [[Cell.str "c0", Cell.str "c1", Cell.str "c2", Cell.str "c3",
        Cell.str "c4", Cell.str "c5", Cell.str "c6", Cell.str "c7", Cell.str "c8"],
      [Cell.str "Slovenia", Cell.str "EU", Cell.str "EUA", Cell.str "High",
        Cell.str "14.5", Cell.str "46.0", Cell.str "IBRD", Cell.str "7.5",
        Cell.none]] =
      Except.ok (some (country_table_core
        [[Cell.str "c0", Cell.str "c1", Cell.str "c2", Cell.str "c3",
          Cell.str "c4", Cell.str "c5", Cell.str "c6", Cell.str "c7", Cell.str "c8"],
        [Cell.str "Slovenia", Cell.str "EU", Cell.str "EUA", Cell.str "High",
          Cell.str "14.5", Cell.str "46.0", Cell.str "IBRD", Cell.str "7.5",
          Cell.none]])) :=
  (claim_C4 _ (by decide) (by decide) (by decide) (by decide) (by decide)
    (by decide)).1

theorem country_table_ok_none {rows : Matrix}
    (hdt : dtypeOf rows = NpDtype.obj)
    (h : country_table rows = Except.ok Option.none) :
    anyCell (as_np_array rows) = false := by
  by_contra hb
  rw [Bool.not_eq_false] at hb
  simp only [country_table, hdt, hb, if_true] at h
  split_ifs at h <;> simp_all

theorem time_series_table_ok_none {mk : Nat × Nat × Nat → Cell} {rows : Matrix}
    (hdt : dtypeOf rows = NpDtype.obj)
    (h : time_series_table mk rows = Except.ok Option.none) :
    anyCell (as_np_array rows) = false := by
  by_contra hb
  rw [Bool.not_eq_false] at hb
  simp only [time_series_table, hdt, hb, if_true] at h
  split_ifs at h <;> simp_all

/-- C8 counterexample: object-dtype inputs with truthy filtered entries
on which `as_orange_table` raises instead of returning a table — the
country branch hits `IndexError` when fewer than 7 columns survive, and
the time-series branch hits `AttributeError` because its truthy date
cell is a string, which has no `timetuple`; the claim's "whenever at
least one truthy element is present it returns a constructed table, and
this holds for both branches" fails on both. -/
theorem claim_C8_cex :
    anyCell (as_np_array [[Cell.str "h0", Cell.str "h1"],
      [Cell.str "w", Cell.none]]) = true ∧
    as_orange_table (fun _ => Cell.num 0)
      ⟨fun _ _ => [[Cell.str "h0", Cell.str "h1"], [Cell.str "w", Cell.none]]⟩
      false = Except.error "IndexError" ∧
    anyCell (as_np_array [[Cell.str "Date", Cell.str "v"],
      [Cell.str "1999", Cell.none]]) = true ∧
    as_orange_table (fun _ => Cell.num 0)
      ⟨fun _ _ => [[Cell.str "Date", Cell.str "v"], [Cell.str "1999", Cell.none]]⟩
      true = Except.error "AttributeError" := by
  refine ⟨by decide, rfl, by decide, rfl⟩

/-- C8 (amended, scoped to object-dtype arrays — on an all-string array
`data.any()` itself raises `TypeError` in either branch):
`as_orange_table` returns `None` exactly when the column-filtered array
of the chosen branch contains no truthy element.  With a truthy element
present, the time-series branch returns a table iff every truthy entry
of the date column is a `datetime.date` (a truthy non-date raises
`AttributeError` at `timetuple()`), and the country branch returns a
table when at least 7 columns survive, the four encoded metadata columns
are sortable, and the payload and longitude/latitude entries are
float-coercible (otherwise it raises `IndexError`, `TypeError`, or
`ValueError` respectively). -/
theorem claim_C8 (mk : Nat × Nat × Nat → Cell) (d : IndicatorData) :
    (dtypeOf (d.lst true false) = NpDtype.obj →
      (as_orange_table mk d true = Except.ok Option.none ↔
        anyCell (as_np_array (d.lst true false)) = false)) ∧
    (dtypeOf (d.lst false true) = NpDtype.obj →
      (as_orange_table mk d false = Except.ok Option.none ↔
        anyCell (as_np_array (d.lst false true)) = false)) ∧
    (dtypeOf (d.lst true false) = NpDtype.obj →
      anyCell (as_np_array (d.lst true false)) = true →
      tsDatesOk (as_np_array (d.lst true false)) = true →
      ∃ t, as_orange_table mk d true = Except.ok (some t)) ∧
    (dtypeOf (d.lst true false) = NpDtype.obj →
      anyCell (as_np_array (d.lst true false)) = true →
      tsDatesOk (as_np_array (d.lst true false)) = false →
      as_orange_table mk d true = Except.error "AttributeError") ∧
    (dtypeOf (d.lst false true) = NpDtype.obj →
      anyCell (as_np_array (d.lst false true)) = true →
      7 ≤ (headerOf (as_np_array (d.lst false true))).length →
      sortEncodeOk (as_np_array (d.lst false true)) = true →
      dataFloatOk (as_np_array (d.lst false true)) = true →
      latlongFloatOk (as_np_array (d.lst false true)) = true →
      ∃ t, as_orange_table mk d false = Except.ok (some t)) := by
  refine ⟨?_, ?_, ?_, ?_, ?_⟩
  · intro hdt
    constructor
    · intro h
      exact time_series_table_ok_none hdt (by simpa [as_orange_table] using h)
    · intro hfalse
      simp [as_orange_table, time_series_table, hdt, hfalse]
  · intro hdt
    constructor
    · intro h
      exact country_table_ok_none hdt (by simpa [as_orange_table] using h)
    · intro hfalse
      simp [as_orange_table, country_table, hdt, hfalse]
  · intro hdt hb hts
    exact ⟨time_series_table_core mk (d.lst true false),
      by simp [as_orange_table, time_series_table, hdt, hb, hts]⟩
  · intro hdt hb hts
    simp [as_orange_table, time_series_table, hdt, hb, hts]
  · intro hdt hb hw hs hf hl
    have hw' : ¬ (headerOf (as_np_array (d.lst false true))).length < 7 := by omega
    exact ⟨country_table_core (d.lst false true),
      by simp [as_orange_table, country_table, hdt, hb, hw', hs, hf, hl]⟩

/-- C8 witness: a dataset whose time-series list has `datetime.date`
cells in the date column gets a table from the time-series branch. -/
theorem claim_C8_witness :
    ∃ t, as_orange_table (fun _ => Cell.num 0)
      ⟨fun _ _ => [[Cell.str "Date", Cell.str "i"],
        [Cell.date (2005, 7, 1), Cell.str "3"]]⟩ true = Except.ok (some t) :=
  (claim_C8 (fun _ => Cell.num 0)
    ⟨fun _ _ => [[Cell.str "Date", Cell.str "i"],
      [Cell.date (2005, 7, 1), Cell.str "3"]]⟩).2.2.1
    (by decide) (by decide) (by decide)

/-! ## Lemmas for the climate country normalization -/

theorem alphaGet_not_mem {m : List (Cell × Cell)} {c : Cell}
    (h : c ∉ m.map Prod.fst) : alphaGet m c = c := by
  have hf : m.find? (fun p => p.1 == c) = Option.none := by
    apply List.find?_eq_none.mpr
    intro p hp
    simp only [beq_iff_eq]
    intro e
    exact h (List.mem_map.mpr ⟨p, hp, e⟩)
  simp [alphaGet, hf]

theorem alphaGet_mem {m : List (Cell × Cell)} {c v : Cell}
    (hnd : (m.map Prod.fst).Nodup) (h : (c, v) ∈ m) : alphaGet m c = v := by
  induction m with
  | nil => cases h
  | cons p rest ih =>
      obtain ⟨k, w⟩ := p
      rw [List.map_cons, List.nodup_cons] at hnd
      by_cases hk : k = c
      · subst hk
        have hv : v = w := by
          rcases List.mem_cons.mp h with e | hr
          · exact (Prod.ext_iff.mp e).2
          · exact absurd (List.mem_map.mpr ⟨(k, v), hr, rfl⟩) hnd.1
        subst hv
        unfold alphaGet
        rw [List.find?_cons_of_pos _ (by simp)]
        rfl
      · have h' : (c, v) ∈ rest := by
          rcases List.mem_cons.mp h with e | hr
          · exact absurd (Prod.ext_iff.mp e).1.symm hk
          · exact hr
        unfold alphaGet at ih ⊢
        rw [List.find?_cons_of_neg _ (by simp [hk])]
        exact ih hnd.2 h'

theorem climate_metas_eq (alpha3 : List (Cell × Cell)) (store : Cell → Cell)
    (rows : Matrix) (hw : 1 ≤ (headerOf (as_np_array rows)).length) :
    (as_np_array rows).tail.map
      (fun r => (r.take 1).set 0 (store (alphaGet alpha3 (cellAt r 0)))) =
    (as_np_array rows).tail.map (fun r => [store (alphaGet alpha3 (cellAt r 0))]) := by
  apply List.map_congr_left
  intro r hr
  have hrlen : r.length = (keptCols rows).length :=
    mem_as_np_array_length (List.mem_of_mem_tail hr)
  have hpos : 1 ≤ r.length := by
    rw [hrlen, ← headerOf_as_np_array_length]; omega
  have hne : r ≠ [] := by
    intro e
    rw [e] at hpos
    simp at hpos
  obtain ⟨x, xs, rfl⟩ := List.exists_cons_of_ne_nil hne
  rfl

theorem init_le_foldl_max (l : List Cell) (a : Nat) :
    a ≤ l.foldl (fun a c => max a (cellChars c)) a := by
  induction l generalizing a with
  | nil => exact le_refl a
  | cons x xs ih => exact le_trans (le_max_left a (cellChars x)) (ih _)

theorem le_foldl_max {c : Cell} {l : List Cell} (hc : c ∈ l) (a : Nat) :
    cellChars c ≤ l.foldl (fun a c => max a (cellChars c)) a := by
  induction l generalizing a with
  | nil => cases hc
  | cons x xs ih =>
      rcases List.mem_cons.mp hc with rfl | hc'
      · exact le_trans (le_max_right a (cellChars c)) (init_le_foldl_max xs _)
      · exact ih hc' _

theorem init_le_foldl_rows (rows : Matrix) (a : Nat) :
    a ≤ rows.foldl (fun a r => r.foldl (fun a c => max a (cellChars c)) a) a := by
  induction rows generalizing a with
  | nil => exact le_refl a
  | cons x xs ih => exact le_trans (init_le_foldl_max x a) (ih _)

theorem le_foldl_rows {rows : Matrix} {r : List Cell} {c : Cell}
    (hr : r ∈ rows) (hc : c ∈ r) (a : Nat) :
    cellChars c ≤ rows.foldl (fun a r => r.foldl (fun a c => max a (cellChars c)) a) a := by
  induction rows generalizing a with
  | nil => cases hr
  | cons x xs ih =>
      rcases List.mem_cons.mp hr with rfl | hr'
      · exact le_trans (le_foldl_max hc a) (init_le_foldl_rows xs _)
      · exact ih hr' _

theorem cellChars_le_itemsize {rows : Matrix} {r : List Cell} {c : Cell}
    (hr : r ∈ rows) (hc : c ∈ r) : cellChars c ≤ itemsize rows := by
  unfold itemsize
  exact le_trans (le_foldl_rows hr hc 0) (le_max_right 1 _)

theorem truncCell_of_mem {rows : Matrix} {r : List Cell} {c : Cell}
    (hr : r ∈ rows) (hc : c ∈ r) :
    truncCell (itemsize rows) c = c := by
  cases c with
  | str s =>
      have hle : s.data.length ≤ itemsize rows := cellChars_le_itemsize hr hc
      show Cell.str (String.mk (s.data.take (itemsize rows))) = Cell.str s
      rw [List.take_of_length_le hle]
  | none => rfl
  | num n => rfl
  | date t => rfl

theorem dtypeOf_allStr {rows : Matrix} (hall : allStrM rows = true)
    (hx : 1 ≤ (headerOf (as_np_array rows)).length) :
    dtypeOf rows = NpDtype.fixedStr (itemsize rows) := by
  have hall' : ∀ r ∈ rows, ∀ c ∈ r, isStrCell c = true := by
    intro r hr c hc
    exact (List.all_eq_true.mp ((List.all_eq_true.mp hall) r hr)) c hc
  have hobj : rows.any (fun r => r.any isObjCell) = false := by
    rw [List.any_eq_false]
    intro r hr
    rw [Bool.not_eq_true, List.any_eq_false]
    intro c hc
    have hs := hall' r hr c hc
    cases c <;> simp_all [isStrCell, isObjCell]
  have hlen1 : 1 ≤ (keptCols rows).length := by
    rw [← headerOf_as_np_array_length]; omega
  cases rows with
  | nil => simp [keptCols] at hlen1
  | cons header body =>
      have hjex : ∃ j, j ∈ keptCols (header :: body) := by
        cases hk : keptCols (header :: body) with
        | nil => rw [hk] at hlen1; simp at hlen1
        | cons j js => exact ⟨j, List.mem_cons_self j js⟩
      obtain ⟨j, hj⟩ := hjex
      have hjlt : j < header.length := (mem_keptCols.mp hj).1
      have hne : header ≠ [] := by
        intro e
        rw [e] at hjlt
        simp at hjlt
      obtain ⟨c0, rest, rfl⟩ := List.exists_cons_of_ne_nil hne
      have hstr : (((c0 :: rest) :: body) : Matrix).any
          (fun r => r.any isStrCell) = true := by
        rw [List.any_eq_true]
        refine ⟨c0 :: rest, List.mem_cons_self _ _, ?_⟩
        rw [List.any_eq_true]
        exact ⟨c0, List.mem_cons_self _ _,
          hall' _ (List.mem_cons_self _ _) c0 (List.mem_cons_self _ _)⟩
      simp [dtypeOf, hobj, hstr]

/-- C6 counterexample: on the all-string array
`[["country", "x"], ["SVN", "1"]]` numpy infers dtype `'<U7'` (the
longest entry is `"country"`), so the assignment of the mapped name
`"Slovenia"` into the country column stores the truncated `"Sloveni"` —
not the mapped country name the claim asserts. -/
theorem claim_C6_cex :
    climate_country_table [(Cell.str "SVN", Cell.str "Slovenia")]
      [[Cell.str "country", Cell.str "x"], [Cell.str "SVN", Cell.str "1"]] =
      Except.ok (some
        { domainAttrs := [OVar.continuousVar (Cell.str "x")]
          domainMetas := [OVar.stringVar (Cell.str "country")]
          X := [[Cell.str "1"]]
          metas := [[Cell.str "Sloveni"]] }) ∧
    alphaGet [(Cell.str "SVN", Cell.str "Slovenia")] (Cell.str "SVN") =
      Cell.str "Slovenia" ∧
    Cell.str "Sloveni" ≠ Cell.str "Slovenia" := by
  refine ⟨rfl, by decide, by decide⟩

/-- C6 (amended: exact replacement holds on object-dtype arrays; on an
all-string array the `'<U w'` store truncates the assigned name to the
itemsize `w` of the unfiltered array): `ClimateDataset._country_table`
rewrites exactly the first (country) column — a key of the alpha-3 map
is replaced by the mapped country name (truncated to `w` in the
fixed-width case), a non-key entry is left unchanged (its own length
always fits the itemsize), and the data columns pass through
unmodified. -/
theorem claim_C6 (alpha3 : List (Cell × Cell)) (rows : Matrix)
    (hlen : 2 ≤ rows.length)
    (hw : 1 ≤ (headerOf (as_np_array rows)).length) :
    (dtypeOf rows = NpDtype.obj →
      ∃ t, climate_country_table alpha3 rows = Except.ok (some t) ∧
        t.metas = (as_np_array rows).tail.map
          (fun r => [alphaGet alpha3 (cellAt r 0)]) ∧
        t.X = (as_np_array rows).tail.map (List.drop 1)) ∧
    (allStrM rows = true →
      ∃ t, climate_country_table alpha3 rows = Except.ok (some t) ∧
        t.metas = (as_np_array rows).tail.map
          (fun r => [truncCell (itemsize rows) (alphaGet alpha3 (cellAt r 0))]) ∧
        t.X = (as_np_array rows).tail.map (List.drop 1)) ∧
    (∀ r ∈ rows, ∀ c ∈ r, truncCell (itemsize rows) c = c) ∧
    (∀ c : Cell, c ∉ alpha3.map Prod.fst → alphaGet alpha3 c = c) ∧
    (∀ c v : Cell, (alpha3.map Prod.fst).Nodup → (c, v) ∈ alpha3 →
      alphaGet alpha3 c = v) := by
  have hlen' : ¬ (as_np_array rows).length < 2 := by
    rw [length_as_np_array]; omega
  have hw' : ¬ (headerOf (as_np_array rows)).length = 0 := by omega
  refine ⟨?_, ?_, fun r hr c hc => truncCell_of_mem hr hc,
    fun c hc => alphaGet_not_mem hc, fun c v hnd hcv => alphaGet_mem hnd hcv⟩
  · intro hdt
    refine ⟨climate_country_table_core alpha3 (fun c => c) rows, ?_, ?_, rfl⟩
    · simp [climate_country_table, hdt, hlen', hw']
    · exact climate_metas_eq alpha3 (fun c => c) rows hw
  · intro hall
    have hdt := dtypeOf_allStr hall hw
    refine ⟨climate_country_table_core alpha3 (truncCell (itemsize rows)) rows,
      ?_, ?_, rfl⟩
    · simp [climate_country_table, hdt, hlen', hw']
    · exact climate_metas_eq alpha3 (truncCell (itemsize rows)) rows hw

/-- C6 witness: on an object-dtype array (a `None` in the payload) the
alpha-3 code `"SVN"` in the country column becomes the full `"Slovenia"`
while the data column is untouched; the truncation conjunct is exercised
at the same array. -/
theorem claim_C6_witness :
    ∃ t, climate_country_table [(Cell.str "SVN", Cell.str "Slovenia")]
      [[Cell.str "country", Cell.str "x"], [Cell.str "SVN", Cell.str "1"],
        [Cell.str "FIN", Cell.none]] = Except.ok (some t) ∧
    t.metas = (as_np_array [[Cell.str "country", Cell.str "x"],
        [Cell.str "SVN", Cell.str "1"], [Cell.str "FIN", Cell.none]]).tail.map
      (fun r => [alphaGet [(Cell.str "SVN", Cell.str "Slovenia")] (cellAt r 0)]) ∧
    t.X = (as_np_array [[Cell.str "country", Cell.str "x"],
        [Cell.str "SVN", Cell.str "1"], [Cell.str "FIN", Cell.none]]).tail.map
      (List.drop 1) :=
  (claim_C6 [(Cell.str "SVN", Cell.str "Slovenia")]
    [[Cell.str "country", Cell.str "x"], [Cell.str "SVN", Cell.str "1"],
      [Cell.str "FIN", Cell.none]]
    (by decide) (by decide)).1 (by decide)

/-! ## Lemmas for the heap model -/

theorem Heap.get_alloc {h : Heap} {m : Matrix} {a : Nat}
    (ha : a < h.arrays.length) : (h.alloc m).1.get a = h.get a := by
  simp only [Heap.get, Heap.alloc, List.getD_eq_getD_get?, List.get?_eq_getElem?]
  rw [List.getElem?_append_left ha]

theorem Heap.get_put_ne {h : Heap} {b : Nat} {m : Matrix} {a : Nat}
    (hne : b ≠ a) : (h.put b m).get a = h.get a := by
  simp only [Heap.get, Heap.put, List.getD_eq_getD_get?, List.get?_eq_getElem?]
  rw [List.getElem?_set_ne hne]

theorem Heap.alloc_length (h : Heap) (m : Matrix) :
    (h.alloc m).1.arrays.length = h.arrays.length + 1 := by
  simp [Heap.alloc]

theorem Heap.alloc_snd (h : Heap) (m : Matrix) :
    (h.alloc m).2 = h.arrays.length := rfl

theorem as_np_array_st_get {h : Heap} {src a : Nat}
    (ha : a < h.arrays.length) :
    (as_np_array_st h src).1.get a = h.get a := by
  unfold as_np_array_st
  rw [Heap.get_alloc (by rw [Heap.alloc_length]; omega), Heap.get_alloc ha]

theorem as_np_array_st_snd (h : Heap) (src : Nat) :
    (as_np_array_st h src).2 = h.arrays.length + 1 := by
  simp [as_np_array_st, Heap.alloc]

/-- C7: the transformations are free of side effects on pre-existing
state: every array already on the heap — in particular the dataset's
stored raw data at `srcTs`/`srcMeta` — is unchanged by `as_np_array`, by
`_country_table` (whose in-place dictionary encoding writes only through
a view of the freshly allocated filtered array), by
`_time_series_table`, and by `as_orange_table` under either flag
value. -/
theorem claim_C7 (mk : Nat × Nat × Nat → Cell) (h : Heap) (srcTs srcMeta a : Nat)
    (ha : a < h.arrays.length) :
    (as_np_array_st h srcMeta).1.get a = h.get a ∧
    (country_table_st h srcMeta).1.get a = h.get a ∧
    (time_series_table_st mk h srcTs).1.get a = h.get a ∧
    (∀ ts : Bool, (as_orange_table_st mk h srcTs srcMeta ts).1.get a = h.get a) := by
  have hc : (country_table_st h srcMeta).1.get a = h.get a := by
    unfold country_table_st
    dsimp only
    split
    · exact as_np_array_st_get ha
    · split
      · split
        · exact as_np_array_st_get ha
        · split
          · exact as_np_array_st_get ha
          · rw [Heap.get_put_ne (by rw [as_np_array_st_snd]; omega)]
            exact as_np_array_st_get ha
      · exact as_np_array_st_get ha
  have ht : (time_series_table_st mk h srcTs).1.get a = h.get a := by
    unfold time_series_table_st
    exact as_np_array_st_get ha
  refine ⟨as_np_array_st_get ha, hc, ht, ?_⟩
  intro ts
  cases ts
  · exact hc
  · exact ht

/-- C7 witness: on a one-array heap, running the country-table pipeline
leaves the pre-existing array at address 0 untouched. -/
theorem claim_C7_witness :
    (country_table_st ⟨[[[Cell.str "x"]]]⟩ 0).1.get 0 =
      Heap.get ⟨[[[Cell.str "x"]]]⟩ 0 :=
  (claim_C7 (fun _ => Cell.num 0) ⟨[[[Cell.str "x"]]]⟩ 0 0 0 (by decide)).2.1

end WBD
